import Mathlib

/-!
Verification development for the Ratio1 edge_node_launcher repository.

The definitions below are a shallow embedding of the container lifecycle
orchestration and command-execution subsystem of the repository, translated
from `src/utils/docker_commands.py` and `src/app_forms/frm_main.py`.
External effects (subprocess execution, the JSON library, the file system)
are modelled as explicit parameters: an environment function mapping a
command line to the `(stdout, stderr, returncode)` triple it would produce,
an abstract JSON decoder, and an explicit `storedFile` component holding the
content last written to the registry file.  Callback pairs
`(callback, error_callback)` are modelled by `Except`: `.ok` means the
success callback was invoked with the given payload and `.error` means the
error callback was invoked with the given message; the code only ever
invokes exactly one of the two per operation.
-/

namespace EdgeNode

/-- Characters treated as whitespace by Python `str.strip` / `str.split`
(ASCII fragment, which is all the program ever manipulates). -/
def isPySpace (c : Char) : Bool :=
  c = ' ' || c = '\t' || c = '\n' || c = '\r' || c = '\x0b' || c = '\x0c'

/-- Python `str.strip()` on a list of characters. -/
def pyStripL (cs : List Char) : List Char :=
  ((cs.dropWhile isPySpace).reverse.dropWhile isPySpace).reverse

/-- Python `str.strip()`. -/
def pyStrip (s : String) : String := String.mk (pyStripL s.data)

/-- Python `str.split()` with no separator: split on whitespace runs,
dropping empty pieces. -/
def pySplit (s : String) : List String :=
  (s.split (fun c => isPySpace c)).filter (fun t => t ≠ "")

/-- Python `str.split(sep)` for a single-character separator: keeps empty
pieces, and the split of the empty string is `[[]]`. -/
def splitOnCharL (sep : Char) : List Char → List (List Char)
  | [] => [[]]
  | c :: rest =>
    match splitOnCharL sep rest with
    | [] => [[]]
    | t :: ts => if c = sep then [] :: t :: ts else (c :: t) :: ts

/-- Python `pat in s` on char lists: `pat` occurs as a contiguous substring. -/
def containsSubL (pat : List Char) : List Char → Bool
  | [] => pat.isPrefixOf ([] : List Char)
  | c :: t => pat.isPrefixOf (c :: t) || containsSubL pat t

/-- Python `pat in s` for strings. -/
def strContains (s pat : String) : Bool := containsSubL pat.data s.data

/-- Python dict assignment `m[k] = v`: overwrite in place when the key
exists (keeping its position), append otherwise. -/
def pyDictSet {α : Type} (m : List (String × α)) (k : String) (v : α) :
    List (String × α) :=
  if m.any (fun p => p.1 = k) then
    m.map (fun p => if p.1 = k then (k, v) else p)
  else m ++ [(k, v)]

/-- Python `" ".join(command)`. -/
def joinSpace (command : List String) : String := String.intercalate " " command

/-! ## The allowed-addresses parser
Embedding of `DockerCommandHandler.get_allowed_addresses.process_allowed_addresses`
(`src/utils/docker_commands.py` lines 506-520).  A line is processed by
skipping it when blank, cutting at the first `#`, stripping, and splitting
once on whitespace into address and alias; a line whose significant part has
a single token raises `ValueError` (`not enough values to unpack`), which the
surrounding `try` turns into one error callback for the whole operation. -/

/-- Python `line.split(\x27#\x27)[0]`: the text before the first `#`. -/
def takeBeforeHash (cs : List Char) : List Char :=
  cs.takeWhile (fun c => c ≠ '#')

/-- The message built by the exception handler of
`process_allowed_addresses` when `main_part.split(None, 1)` cannot be
unpacked into an address and an alias. -/
def unpackErrorMsg : String :=
  "Failed to process allowed addresses: not enough values to unpack (expected 2, got 1)"

/-- One iteration of the parsing loop of `process_allowed_addresses`, acting
on the dictionary built so far.  `.error` aborts the whole loop. -/
def lineStep (d : List (String × String)) (line : List Char) :
    Except String (List (String × String)) :=
  if pyStripL line = [] then .ok d
  else
    let main := pyStripL (takeBeforeHash line)
    if main = [] then .ok d
    else
      let tok := main.takeWhile (fun c => !isPySpace c)
      let rest := (main.dropWhile (fun c => !isPySpace c)).dropWhile isPySpace
      if rest = [] then .error unpackErrorMsg
      else .ok (pyDictSet d (String.mk tok) (String.mk (pyStripL rest)))

/-- Embedding of `process_allowed_addresses`: strip the whole output, split
it on newlines, and fold the line parser over the lines, short-circuiting on
the first failing line.  `.ok d` means the success callback receives the
dictionary `d`; `.error m` means the error callback receives `m` and the
success callback is never invoked. -/
def process_allowed_addresses (output : String) :
    Except String (List (String × String)) :=
  (splitOnCharL '\n' (pyStripL output.data)).foldlM lineStep []

/-- A line whose significant part (before `#`, stripped) is nonempty but has
no second whitespace-delimited token; such a line makes the parsing loop
raise. -/
def line_single_token (line : List Char) : Bool :=
  let main := pyStripL (takeBeforeHash line)
  !main.isEmpty &&
    ((main.dropWhile (fun c => !isPySpace c)).dropWhile isPySpace).isEmpty

/-! ## Module constants (`src/utils/docker_commands.py` lines 17-19) -/

def DOCKER_IMAGE : String := "ratio1/edge_node:mainnet"

def DOCKER_TAG : String := "latest"

/-- Modelled from the spec: `DOCKER_VOLUME_PATH` is imported from
`utils.const` but the provided `const.py` does not define it; per the spec it
is the fixed container-side mount path of the data volume.  No claim depends
on its value. -/
def DOCKER_VOLUME_PATH : String := "/edge_node/_data"

/-! ## DockerCommandThread (`src/utils/docker_commands.py` lines 104-182)
The thread executes one `docker exec` command under `subprocess.run` with a
bounded timeout and emits exactly one Qt signal.  The subprocess itself is
modelled by a `ProcOutcome` giving the wall-clock duration the child would
need together with its outputs: `subprocess.run` raises `TimeoutExpired`
exactly when the duration exceeds the timeout argument.  `json.loads` is
modelled by an abstract decoder `jsonLoads` into an arbitrary payload type. -/

/-- Outcome of the underlying subprocess, had it been allowed to finish. -/
structure ProcOutcome where
  duration : Nat
  stdout : String
  stderr : String
  returncode : Int
deriving DecidableEq

/-- The one signal emitted by `DockerCommandThread.run`:
`command_finished` with a decoded JSON payload, `command_finished` with a
plain-text message dictionary, or `command_error` with a message. -/
inductive ThreadEvent (J : Type) where
  | finishedJson (data : J)
  | finishedMessage (message : String)
  | errorEmitted (message : String)
deriving DecidableEq

/-- Python truthiness of the `remote_ssh_command` attribute: `None` and the
empty list are both falsy. -/
def remoteActive (remote_ssh_command : Option (List String)) : Bool :=
  match remote_ssh_command with
  | some p => !p.isEmpty
  | none => false

/-- The argv handed to `subprocess.run` by `DockerCommandThread.run` (lines
118-125): `docker exec`, the interactive flag when input is supplied, the
container name, the whitespace-split command, with the remote prefix
prepended when one is configured. -/
def thread_full_command (remote_ssh_command : Option (List String))
    (container_name command : String) (input_data : Option String) :
    List String :=
  let base := ["docker", "exec"] ++ (if input_data.isSome then ["-i"] else []) ++
    [container_name] ++ pySplit command
  if remoteActive remote_ssh_command then
    (remote_ssh_command.getD []) ++ base
  else base

/-- The timeout passed to `subprocess.run` (line 133): 20 seconds when a
remote prefix is configured, 10 otherwise. -/
def thread_timeout (remote_ssh_command : Option (List String)) : Nat :=
  if remoteActive remote_ssh_command then 20 else 10

/-- Python rendering of `self.input_data` inside an f-string. -/
def pyOptRepr (o : Option String) : String :=
  match o with
  | none => "None"
  | some s => s

/-- Python `str.startswith`. -/
def pyStartsWith (s pre : String) : Bool := pre.data.isPrefixOf s.data

/-- Embedding of `DockerCommandThread.run` (lines 116-182).  Returns the
argv passed to `subprocess.run` together with the single emitted signal. -/
def thread_run {J : Type} (jsonLoads : String → Option J)
    (remote_ssh_command : Option (List String))
    (container_name command : String) (input_data : Option String)
    (proc : ProcOutcome) : List String × ThreadEvent J :=
  let full_command := thread_full_command remote_ssh_command container_name command input_data
  let timeout := thread_timeout remote_ssh_command
  let event : ThreadEvent J :=
    if timeout < proc.duration then
      .errorEmitted ("Command timed out after " ++ toString timeout ++
        " seconds: " ++ joinSpace full_command)
    else if proc.returncode ≠ 0 then
      .errorEmitted ("Command failed: " ++ proc.stderr ++ "\nCommand: " ++
        joinSpace full_command ++ "\nInput data: " ++ pyOptRepr input_data)
    else if command = "reset_address" || pyStartsWith command "change_alias" then
      .finishedMessage (pyStrip proc.stdout)
    else
      match jsonLoads proc.stdout with
      | some data => .finishedJson data
      | none => .errorEmitted ("Error decoding JSON response. Raw output: " ++ proc.stdout)
  (full_command, event)

/-! ## DockerCommandHandler state and synchronous command execution
(`src/utils/docker_commands.py` lines 184-233, 469-483, 617-849) -/

/-- The handler attributes the embedded operations read. -/
structure HandlerState where
  container_name : String
  remote_ssh_command : Option (List String)
deriving DecidableEq

/-- Embedding of `set_remote_connection` (lines 469-471):
`ssh_command.split() if ssh_command else None`. -/
def set_remote_connection (h : HandlerState) (ssh_command : String) : HandlerState :=
  { h with remote_ssh_command :=
      if ssh_command = "" then none else some (pySplit ssh_command) }

/-- Embedding of `clear_remote_connection` (lines 473-475). -/
def clear_remote_connection (h : HandlerState) : HandlerState :=
  { h with remote_ssh_command := none }

/-- The argv `execute_command` (lines 210-233) hands to `subprocess.run`:
the method forwards its `command` argument unchanged and never reads
`self.remote_ssh_command`; the handler state parameter records that the
attribute is in scope but unused. -/
def execute_command_argv (_h : HandlerState) (command : List String) : List String :=
  command

/-- The command built by `run_stop` inside `stop_container` (lines 630-633). -/
def stop_command (h : HandlerState) (container_name : Option String) : List String :=
  ["docker", "stop", container_name.getD h.container_name]

/-- The command built by `run_remove` inside `remove_container`
(lines 664-669). -/
def remove_command (h : HandlerState) (container_name : Option String)
    (force : Bool) : List String :=
  ["docker", "rm"] ++ (if force then ["-f"] else []) ++
    [container_name.getD h.container_name]

/-- The command built by `inspect_container` (lines 710, 736). -/
def inspect_command (h : HandlerState) (container_name : Option String) : List String :=
  ["docker", "inspect", container_name.getD h.container_name]

/-- The command built by `list_containers` (lines 790-796, 827-833). -/
def list_command (all_containers : Bool) : List String :=
  ["docker", "ps", "--format",
    "\x7b\x7b.Names\x7d\x7d\t\x7b\x7b.Status\x7d\x7d\t\x7b\x7b.ID\x7d\x7d",
    "-f", "name=r1node"] ++ (if all_containers then ["-a"] else [])

/-- The argv built by `get_allowed_addresses` (lines 523-527), the one
non-thread code path that does prepend the remote prefix. -/
def get_allowed_full_command (h : HandlerState) : List String :=
  let base := ["docker", "exec", h.container_name, "get_allowed"]
  if remoteActive h.remote_ssh_command then
    (h.remote_ssh_command.getD []) ++ base
  else base

/-! ## ContainerRegistry (`src/utils/docker_commands.py` lines 21-102)
The registry holds an insertion-ordered dictionary from container name to
`ContainerInfo` and rewrites the whole JSON file on every mutation.  The
file system is modelled by the `storedFile` component: the decoded JSON
content last written.  `datetime.now().isoformat()` is modelled by an
explicit `now` argument.  JSON field values are strings or `null` (the only
values the program ever writes); `ContainerInfo(**info)` requires exactly
the four field names, with `volume_name` allowed to be `null` because
`launch_container` may register a `None` volume. -/

/-- A JSON value stored in a registry file field. -/
inductive JsonField where
  | str (s : String)
  | null
deriving DecidableEq

/-- The `ContainerInfo` dataclass (lines 21-27). -/
structure ContainerInfo where
  container_name : String
  volume_name : Option String
  created_at : String
  last_used : String
deriving DecidableEq

/-- Encoding of an optional string as a JSON field value. -/
def optToField : Option String → JsonField
  | some s => .str s
  | none => .null

/-- Decoding of a JSON field value back to an optional string. -/
def fieldToOpt : JsonField → Option String
  | .str s => some s
  | .null => none

/-- Python `vars(info)`: the dataclass fields in declaration order. -/
def varsOf (i : ContainerInfo) : List (String × JsonField) :=
  [("container_name", .str i.container_name),
   ("volume_name", optToField i.volume_name),
   ("created_at", .str i.created_at),
   ("last_used", .str i.last_used)]

/-- Python `ContainerInfo(**info)`: succeeds exactly when the field dict
has the four expected keys and no others, with the string-typed fields
holding strings. -/
def infoOfFields (fs : List (String × JsonField)) : Option ContainerInfo :=
  match fs.lookup "container_name", fs.lookup "volume_name",
      fs.lookup "created_at", fs.lookup "last_used" with
  | some (.str n), some v, some (.str c), some (.str l) =>
    if fs.length = 4 then some ⟨n, fieldToOpt v, c, l⟩ else none
  | _, _, _, _ => none

/-- The decoded JSON content of the registry file: container name to field
dict. -/
abbrev SavedFile := List (String × List (String × JsonField))

/-- Embedding of `_save_containers` (lines 54-57): serialize the whole map. -/
def save_containers (m : List (String × ContainerInfo)) : SavedFile :=
  m.map (fun p => (p.1, varsOf p.2))

/-- Embedding of `_load_containers` (lines 42-52): rebuild every entry with
`ContainerInfo(**info)`; any failure degrades the whole load to the empty
map. -/
def load_containers (f : SavedFile) : List (String × ContainerInfo) :=
  match f.mapM (fun p => (infoOfFields p.2).map (fun i => (p.1, i))) with
  | some m => m
  | none => []

/-- In-memory registry dictionary plus the registry file content. -/
structure RegistryState where
  containers : List (String × ContainerInfo)
  storedFile : SavedFile
deriving DecidableEq

/-- Embedding of `ContainerRegistry.__init__` (lines 31-34): load the
dictionary from the existing storage file. -/
def fresh_registry (f : SavedFile) : RegistryState :=
  { containers := load_containers f, storedFile := f }

/-- Embedding of `add_container` (lines 59-71): overwrite or append the
entry, stamping both timestamps with the current time, then save the whole
map. -/
def add_container (r : RegistryState) (container_name : String)
    (volume_name : Option String) (now : String) : RegistryState :=
  let containers := pyDictSet r.containers container_name
    ⟨container_name, volume_name, now, now⟩
  { containers := containers, storedFile := save_containers containers }

/-- Embedding of `ContainerRegistry.remove_container` (lines 73-80): delete
the entry and save, a no-op when the name is absent. -/
def registry_remove_container (r : RegistryState) (container_name : String) :
    RegistryState :=
  if r.containers.any (fun p => p.1 = container_name) then
    let containers := r.containers.filter (fun p => p.1 ≠ container_name)
    { containers := containers, storedFile := save_containers containers }
  else r

/-- Embedding of `update_last_used` (lines 91-98): update the field in place
and save, a no-op when the name is absent. -/
def update_last_used (r : RegistryState) (container_name now : String) :
    RegistryState :=
  if r.containers.any (fun p => p.1 = container_name) then
    let containers := r.containers.map (fun p =>
      if p.1 = container_name then (p.1, { p.2 with last_used := now }) else p)
    { containers := containers, storedFile := save_containers containers }
  else r

/-- Embedding of `ContainerRegistry.list_containers` (lines 100-102):
`list(self.containers.values())`. -/
def registry_list_containers (r : RegistryState) : List ContainerInfo :=
  r.containers.map (fun p => p.2)

/-- A registry mutation, as invoked by the handler. -/
inductive RegOp where
  | add (container_name : String) (volume_name : Option String) (now : String)
  | update (container_name : String) (now : String)
  | remove (container_name : String)
deriving DecidableEq

/-- Apply one mutation. -/
def applyOp (r : RegistryState) : RegOp → RegistryState
  | .add n v now => add_container r n v now
  | .update n now => update_last_used r n now
  | .remove n => registry_remove_container r n

/-- Replay a sequence of mutations. -/
def applyOps (r : RegistryState) (ops : List RegOp) : RegistryState :=
  ops.foldl applyOp r

/-- Spec-side definition, following the words of the spec only: the
case-insensitive order on container names, lexicographic on lowercased
characters. -/
def lexLeChars : List Char → List Char → Bool
  | [], _ => true
  | _ :: _, [] => false
  | a :: as, b :: bs => if a = b then lexLeChars as bs else decide (a < b)

/-- Spec-side definition: case-insensitive comparison of names. -/
def leNameCI (a b : String) : Bool :=
  lexLeChars (a.data.map Char.toLower) (b.data.map Char.toLower)

/-- Spec-side definition: the list is sorted by container name, compared
case-insensitively, as the spec asserts of `list_all()`. -/
def sortedByNameCI : List ContainerInfo → Bool
  | [] => true
  | [_] => true
  | a :: b :: rest =>
    leNameCI a.container_name b.container_name && sortedByNameCI (b :: rest)

/-! ## launch_container / run_launch (`src/utils/docker_commands.py`
lines 366-467)
The launch thread issues a sequence of docker commands through
`execute_command`; the daemon is modelled by an environment `env` mapping an
argv to its `(stdout, stderr, returncode)` triple.  The embedding returns
the trace of argvs issued, in order, together with the outcome delivered to
the callback pair.  `platform.machine()` is the `machine` parameter. -/

/-- Embedding of `get_launch_command` (lines 436-467). -/
def get_launch_command (machine container_name : String)
    (volume_name : Option String) : List String :=
  ["docker", "run"] ++
    (if machine = "aarch64" || machine = "arm64" then ["--platform", "linux/amd64"] else []) ++
    ["-d", "--name", container_name, "--restart", "unless-stopped"] ++
    (match volume_name with
     | some v => if v = "" then [] else ["-v", v ++ ":" ++ DOCKER_VOLUME_PATH]
     | none => []) ++
    [DOCKER_IMAGE]

/-- An environment giving each issued command its subprocess outcome. -/
abbrev CmdEnv := List String → String × String × Int

/-- The image-check/pull/run tail of `run_launch` (lines 391-412), entered
once any pre-existing same-named container has been dealt with. -/
def launch_after_removal (env : CmdEnv) (machine container_name : String)
    (volume_name : Option String) : List (List String) × Except String Unit :=
  let imagesCmd := ["docker", "images", "-q", DOCKER_IMAGE]
  let r3 := env imagesCmd
  let step :=
    if pyStrip r3.1 = "" then
      let pullCmd := ["docker", "pull", DOCKER_IMAGE]
      let r4 := env pullCmd
      if r4.2.2 ≠ 0 then
        ([imagesCmd, pullCmd],
          some ("Failed to pull Docker image: " ++ r4.2.1))
      else ([imagesCmd, pullCmd], none)
    else ([imagesCmd], none)
  match step.2 with
  | some msg => (step.1, .error msg)
  | none =>
    let runCmd := get_launch_command machine container_name volume_name
    let r5 := env runCmd
    if r5.2.2 ≠ 0 then
      (step.1 ++ [runCmd], .error ("Failed to launch container: " ++ r5.2.1))
    else (step.1 ++ [runCmd], .ok ())

/-- Embedding of `run_launch` inside `launch_container` (lines 377-428):
inspect for a same-named container, force-remove it when present (aborting
if the removal fails), then check/pull the image and issue the run command.
`.ok` means the success callback fires (after the registry update, which
claim C5 models separately); `.error msg` means the error callback receives
`msg`. -/
def run_launch (env : CmdEnv) (machine container_name : String)
    (volume_name : Option String) : List (List String) × Except String Unit :=
  let inspectCmd := ["docker", "container", "inspect", container_name]
  let r1 := env inspectCmd
  if r1.2.2 = 0 then
    let rmCmd := ["docker", "rm", "-f", container_name]
    let r2 := env rmCmd
    if r2.2.2 ≠ 0 then
      ([inspectCmd, rmCmd],
        .error ("Failed to remove existing container: " ++ r2.2.1))
    else
      let next := launch_after_removal env machine container_name volume_name
      (inspectCmd :: rmCmd :: next.1, next.2)
  else
    let next := launch_after_removal env machine container_name volume_name
    (inspectCmd :: next.1, next.2)

/-- A `docker run ...` command. -/
def isRunCommand (c : List String) : Bool := c.take 2 = ["docker", "run"]

/-! ## The launch name-conflict retry (`src/app_forms/frm_main.py`
lines 2895-2953)
`on_launch_error` inspects the error message; on the conflict pattern it
extracts the conflicting container id with `re.search`, force-removes it,
sleeps one second and calls `launch_container_threaded` again, passing
itself as the error callback of the retried launch.  Modelled from the spec:
`launch_container_threaded` (absent from the provided sources; only callers
appear) performs one launch attempt and reports its outcome through exactly
one of the callback pair, so a run of the handler is driven by the list of
successive launch-attempt outcomes.  `subprocess.run` for the direct
`docker rm -f <id>` is modelled by `rmRc`, the return code it produces for a
given id. -/

/-- Embedding of the conflict test of `on_launch_error` (line 2900):
both substrings must occur in the error message. -/
def is_conflict_error (msg : String) : Bool :=
  strContains msg "Conflict" && strContains msg "is already in use"

/-- Embedding of the regular-expression search `on_launch_error` performs
on the error message (pattern: the literal `by container "`, a group of one
or more non-quote characters, a closing quote) followed by `.group(1)`: at
the leftmost position where the literal is followed by at least one
non-quote character and a closing quote, return those characters. -/
def extractAfterLit (lit : List Char) : List Char → Option (List Char)
  | [] => none
  | c :: t =>
    if lit.isPrefixOf (c :: t) then
      let rest := (c :: t).drop lit.length
      let idc := rest.takeWhile (fun x => x ≠ '"')
      let close := rest.dropWhile (fun x => x ≠ '"')
      if idc ≠ [] ∧ close ≠ [] then some idc else extractAfterLit lit t
    else extractAfterLit lit t

/-- The conflicting container id extracted from the error message. -/
def extract_container_id (msg : String) : Option String :=
  (extractAfterLit ("by container \"".data) msg.data).map (fun cs => String.mk cs)

/-- Observable steps of the launch-with-conflict-retry handler. -/
inductive LaunchEvent where
  | launched
  | removedConflicting (cid : String)
  | slept (seconds : Nat)
deriving DecidableEq, BEq

/-- Embedding of the launch/`on_launch_error` loop: the list holds the
outcome of each successive launch attempt (`.ok ()` success being delivered
to `on_launch_success`).  Each attempt issues a `launched` event; a
conflict-pattern failure with an extractable id whose forced removal
succeeds issues `removedConflicting` and `slept 1` and consumes the next
attempt; every other failure falls through to the terminal error path of
`on_launch_error` (the final `.error`).  The empty list (no outcome
available) is an artifact never reached by the theorems. -/
def launch_retry_loop (rmRc : String → Int) :
    List (Except String Unit) → List LaunchEvent × Except String Unit
  | [] => ([], .error "")
  | .ok () :: _ => ([.launched], .ok ())
  | .error msg :: rest =>
    if is_conflict_error msg then
      match extract_container_id msg with
      | some cid =>
        if rmRc cid = 0 then
          let next := launch_retry_loop rmRc rest
          (.launched :: .removedConflicting cid :: .slept 1 :: next.1, next.2)
        else ([.launched], .error msg)
      | none => ([.launched], .error msg)
    else ([.launched], .error msg)

/-! ## inspect_container / is_container_running (`src/utils/docker_commands.py`
lines 691-774)
`json.loads(stdout)[0]` is modelled by an abstract decoder `jsonFirst`
returning the parsed first array element or `none` on
`JSONDecodeError`/`IndexError`.  The parsed element is reduced to the two
nested lookups the code performs: `State` possibly absent, and within it
`Running` possibly absent. -/

/-- The decoded container info, reduced to the fields the code reads:
`none` models an absent `State` key, `some none` an absent `Running` key. -/
structure InspectInfo where
  state : Option (Option Bool)
deriving DecidableEq

/-- Python `container_info.get(\x27State\x27, \x7b\x7d).get(\x27Running\x27, False)`. -/
def runningOf (info : InspectInfo) : Bool :=
  (info.state.getD none).getD false

/-- Embedding of the synchronous branch of `inspect_container` (lines
734-744): nonzero exit or an unparsable payload raise; `.error` carries the
exception message. -/
def inspect_container_sync (env : CmdEnv)
    (jsonFirst : String → Option InspectInfo) (name : String) :
    Except String InspectInfo :=
  let r := env ["docker", "inspect", name]
  if r.2.2 ≠ 0 then
    .error ("Failed to inspect container " ++ name ++ ": " ++ r.2.1)
  else
    match jsonFirst r.1 with
    | some info => .ok info
    | none => .error "Failed to parse container info"

/-- Embedding of the synchronous branch of `is_container_running` (lines
768-774): any exception from `inspect_container` is swallowed and `False`
returned. -/
def is_container_running_sync (env : CmdEnv)
    (jsonFirst : String → Option InspectInfo) (name : String) : Bool :=
  match inspect_container_sync env jsonFirst name with
  | .ok info => runningOf info
  | .error _ => false

/-- Embedding of the callback branch of `is_container_running` (lines
759-767): `inspect_container` runs with the caller-supplied error callback,
so an inspect failure reaches the error callback (`.error`), and only a
successful inspect reaches the success callback with the running flag
(`.ok`). -/
def is_container_running_callback (env : CmdEnv)
    (jsonFirst : String → Option InspectInfo) (name : String) :
    Except String Bool :=
  (inspect_container_sync env jsonFirst name).map runningOf

/-! ## The metric-series adjustment of update_plot (`src/app_forms/frm_main.py`
lines 1286-1294)
`update_plot` plots a series only when it is nonempty (`if data and
len(data) > 0`), after truncating it with `data[-len(timestamps):]` when
longer than the timestamps and left-padding it with zeros when shorter.
Metric values are modelled as integers; only lengths and positions matter to
the claim. -/

/-- Python `xs[-n:]`: for `n = 0` this is the whole list, not the empty
one. -/
def pySliceLastN (xs : List Int) (n : Nat) : List Int :=
  if n = 0 then xs else xs.drop (xs.length - n)

/-- The series handed to `plot_widget.plot`, or `none` when the plot call
is skipped. -/
def adjust_series (timestamps : List String) (data : List Int) :
    Option (List Int) :=
  if data.isEmpty then none
  else if timestamps.length < data.length then
    some (pySliceLastN data timestamps.length)
  else if data.length < timestamps.length then
    some (List.replicate (timestamps.length - data.length) 0 ++ data)
  else some data

/-! # Theorems -/

/-! ## Auxiliary lemmas on the Python string helpers -/

/-- The empty pattern occurs in every haystack. -/
theorem containsSubL_nil_pat : ∀ l : List Char, containsSubL [] l = true
  | [] => by simp [containsSubL, List.isPrefixOf]
  | _ :: _ => by simp [containsSubL, List.isPrefixOf]

/-- A substring occurrence survives extending the haystack on the right. -/
theorem containsSubL_append (pat hay tail : List Char)
    (h : containsSubL pat hay = true) :
    containsSubL pat (hay ++ tail) = true := by
  induction hay with
  | nil =>
    simp only [containsSubL] at h
    have hpat : pat = [] := by
      have := List.isPrefixOf_iff_prefix.mp h
      simpa using this
    subst hpat
    simpa using containsSubL_nil_pat tail
  | cons c t ih =>
    simp only [containsSubL, Bool.or_eq_true] at h
    rcases h with h | h
    · have hpfx : pat <+: c :: t := List.isPrefixOf_iff_prefix.mp h
      have : pat <+: (c :: t) ++ tail := hpfx.trans (List.prefix_append _ _)
      simp only [List.cons_append, containsSubL, Bool.or_eq_true]
      exact Or.inl ( List.isPrefixOf_iff_prefix.mpr (by simpa using this))
    · simp only [List.cons_append, containsSubL, Bool.or_eq_true]
      exact Or.inr (ih h)

/-- Stripping gives the empty list exactly when every character is
whitespace. -/
theorem pyStripL_eq_nil_iff (l : List Char) :
    pyStripL l = [] ↔ ∀ x ∈ l, isPySpace x = true := by
  unfold pyStripL
  rw [List.reverse_eq_nil_iff, List.dropWhile_eq_nil_iff]
  have hsplit : l.takeWhile isPySpace ++ l.dropWhile isPySpace = l :=
    List.takeWhile_append_dropWhile isPySpace l
  constructor
  · intro h x hx
    rw [← hsplit] at hx
    rcases List.mem_append.mp hx with h1 | h1
    · exact List.mem_takeWhile_imp h1
    · exact h x (List.mem_reverse.mpr h1)
  · intro h x hx
    exact h x (by
      rw [← hsplit]
      exact List.mem_append.mpr (Or.inr (List.mem_reverse.mp hx)))

/-- Python dict assignment appends when the key is absent. -/
theorem pyDictSet_of_not_mem {α : Type} (m : List (String × α)) (k : String)
    (v : α) (h : ∀ p ∈ m, p.1 ≠ k) : pyDictSet m k v = m ++ [(k, v)] := by
  unfold pyDictSet
  rw [if_neg]
  intro hc
  rw [List.any_eq_true] at hc
  rcases hc with ⟨p, hp, hpk⟩
  exact h p hp (by simpa using hpk)

/-! ## Claim C7: order of `ContainerRegistry.list_containers` -/

/-- Claim C7, counterexample: after registering `"b-node"` and then
`"A-node"`, `list_containers` returns the entries in that insertion order,
which is not sorted by name under the case-insensitive order the spec
asserts; the method is `list(self.containers.values())` with no sorting. -/
theorem c7_counterexample :
    sortedByNameCI (registry_list_containers
      (add_container (add_container (fresh_registry []) "b-node" (some "v1") "t1")
        "A-node" (some "v2") "t2")) = false := by decide

/-- Claim C7 as amended: `list_containers` returns the registered
containers in insertion order — starting from any registry, adding a
sequence of containers with fresh, pairwise-distinct names lists the old
entries first and then the new ones in exactly the order they were added,
with no sorting applied. -/
theorem c7_insertion_order (r : RegistryState)
    (entries : List (String × Option String × String))
    (hfresh : ∀ e ∈ entries, ∀ p ∈ r.containers, p.1 ≠ e.1)
    (hnodup : (entries.map (fun e => e.1)).Nodup) :
    registry_list_containers
        (applyOps r (entries.map (fun e => RegOp.add e.1 e.2.1 e.2.2))) =
      registry_list_containers r ++
        entries.map (fun e => ⟨e.1, e.2.1, e.2.2, e.2.2⟩) := by
  induction entries generalizing r with
  | nil => simp [applyOps, registry_list_containers]
  | cons e es ih =>
    rcases e with ⟨n, v, now⟩
    have hfresh0 : ∀ p ∈ r.containers, p.1 ≠ n := fun p hp =>
      hfresh ⟨n, v, now⟩ (List.mem_cons_self _ _) p hp
    have hadd : add_container r n v now =
        { containers := r.containers ++ [(n, ⟨n, v, now, now⟩)],
          storedFile := save_containers (r.containers ++ [(n, ⟨n, v, now, now⟩)]) } := by
      unfold add_container
      rw [pyDictSet_of_not_mem _ _ _ hfresh0]
    have hcons : (n :: es.map (fun e => e.1)).Nodup := by simpa using hnodup
    have hnodup' : (es.map (fun e => e.1)).Nodup := (List.nodup_cons.mp hcons).2
    have hnotin : n ∉ es.map (fun e => e.1) := (List.nodup_cons.mp hcons).1
    have hfresh' : ∀ e ∈ es,
        ∀ p ∈ (add_container r n v now).containers, p.1 ≠ e.1 := by
      intro e he p hp
      rw [hadd] at hp
      rcases List.mem_append.mp hp with h1 | h1
      · exact hfresh e (List.mem_cons_of_mem _ he) p h1
      · have hpn : p = (n, ⟨n, v, now, now⟩) := by simpa using h1
        subst hpn
        intro hcontra
        have hmem : e.1 ∈ es.map (fun e => e.1) := List.mem_map.mpr ⟨e, he, rfl⟩
        rw [← hcontra] at hmem
        exact hnotin hmem
    have := ih (add_container r n v now) hfresh' hnodup'
    simp only [List.map_cons, applyOps, List.foldl_cons] at *
    rw [show applyOp r (RegOp.add n v now) = add_container r n v now from rfl]
    rw [this, hadd]
    simp [registry_list_containers]

/-! ## Claim C8: reconciliation of metric series with timestamps -/

/-- Claim C8, counterexample: an empty series that is shorter than the
timestamps is skipped entirely (the plot call never happens) instead of
being left-padded with zeros, and with no timestamps a longer series is
passed through whole (`data[-0:]` is the full list) instead of being
truncated to zero points. -/
theorem c8_counterexample :
    adjust_series ["2024-01-01T00:00:00"] [] = none ∧
    adjust_series [] [5] = some [5] := by decide

/-- Claim C8 as amended: for a nonempty series and nonempty timestamps the
series handed to the plot is left-padded with zeros to the timestamp count
when shorter, truncated to the most recent `len(timestamps)` points when
longer, and passed through unchanged when equal; an empty series is never
handed over at all. -/
theorem c8_series_reconciliation (timestamps : List String) (data : List Int)
    (hd : data ≠ []) (ht : timestamps ≠ []) :
    ∃ out, adjust_series timestamps data = some out ∧
      out.length = timestamps.length ∧
      (data.length < timestamps.length →
        out = List.replicate (timestamps.length - data.length) 0 ++ data) ∧
      (timestamps.length < data.length →
        out = data.drop (data.length - timestamps.length)) ∧
      (data.length = timestamps.length → out = data) := by
  have hde : data.isEmpty = false := by
    cases data with
    | nil => exact absurd rfl hd
    | cons a t => rfl
  have hte : timestamps.length ≠ 0 := by
    cases timestamps with
    | nil => exact absurd rfl ht
    | cons a t => simp
  unfold adjust_series
  rw [hde]
  simp only [Bool.false_eq_true, if_false]
  rcases Nat.lt_trichotomy timestamps.length data.length with hlt | heq | hgt
  · refine ⟨pySliceLastN data timestamps.length, by rw [if_pos hlt], ?_, ?_, ?_, ?_⟩
    · unfold pySliceLastN
      rw [if_neg hte, List.length_drop]
      omega
    · intro hc; omega
    · intro _
      unfold pySliceLastN
      rw [if_neg hte]
    · intro hc; omega
  · refine ⟨data, ?_, by omega, by omega, by omega, fun _ => rfl⟩
    rw [if_neg (by omega), if_neg (by omega)]
  · refine ⟨List.replicate (timestamps.length - data.length) 0 ++ data,
      by rw [if_neg (by omega), if_pos hgt], ?_, fun _ => rfl, by omega, by omega⟩
    rw [List.length_append, List.length_replicate]
    omega

/-- Claim C7 witness: the amended theorem applied to two concrete
registrations from an empty registry. -/
theorem c7_insertion_order_witness :
    ((([("b-node", some "v1", "t1"), ("A-node", some "v2", "t2")] :
        List (String × Option String × String)).map (fun e => e.1)).Nodup) ∧
    registry_list_containers
        (applyOps (fresh_registry [])
          ([("b-node", some "v1", "t1"), ("A-node", some "v2", "t2")].map
            (fun e => RegOp.add e.1 e.2.1 e.2.2))) =
      registry_list_containers (fresh_registry []) ++
        [⟨"b-node", some "v1", "t1", "t1"⟩, ⟨"A-node", some "v2", "t2", "t2"⟩] :=
  ⟨by decide,
    c7_insertion_order (fresh_registry [])
      [("b-node", some "v1", "t1"), ("A-node", some "v2", "t2")]
      (by
        intro e _ p hp
        have hnil : (fresh_registry ([] : SavedFile)).containers = [] := rfl
        rw [hnil] at hp
        exact absurd hp (List.not_mem_nil p)) (by decide)⟩

/-- Claim C8 witness: the amended theorem applied to a one-point series
against two timestamps. -/
theorem c8_series_reconciliation_witness :
    (([7] : List Int) ≠ [] ∧ (["a", "b"] : List String) ≠ []) ∧
    ∃ out, adjust_series ["a", "b"] [7] = some out ∧
      out.length = (["a", "b"] : List String).length ∧
      (([7] : List Int).length < (["a", "b"] : List String).length →
        out = List.replicate ((["a", "b"] : List String).length - ([7] : List Int).length) 0 ++ [7]) ∧
      ((["a", "b"] : List String).length < ([7] : List Int).length →
        out = ([7] : List Int).drop (([7] : List Int).length - (["a", "b"] : List String).length)) ∧
      (([7] : List Int).length = (["a", "b"] : List String).length → out = [7]) :=
  ⟨⟨by decide, by decide⟩,
    c8_series_reconciliation ["a", "b"] [7] (by decide) (by decide)⟩

/-! ## Claim C2: remote-connection prefixing -/

/-- Claim C2, counterexample: with the remote prefix `["ssh", "host"]`
configured via `set_remote_connection`, the command issued by the stop
operation through `execute_command` is not the prefix followed by the
original command — `execute_command` hands its argument to `subprocess.run`
unchanged and never consults `remote_ssh_command`. -/
theorem c2_counterexample :
    execute_command_argv (set_remote_connection ⟨"r1node", none⟩ "ssh host")
        (stop_command (set_remote_connection ⟨"r1node", none⟩ "ssh host") none) ≠
      ["ssh", "host"] ++
        stop_command (set_remote_connection ⟨"r1node", none⟩ "ssh host") none := by
  decide

/-- Claim C2 as amended: with a nonempty remote prefix configured, only the
exec-based code paths — `DockerCommandThread` commands and
`get_allowed_addresses` — prepend the prefix to the command; every command
issued through `execute_command` (launch, stop, remove, inspect, list) runs
unprefixed even while the prefix is set, and after
`clear_remote_connection` the exec-based commands run unprefixed too. -/
theorem c2_remote_prefixing (h : HandlerState) (p : List String) (cmd : String)
    (input : Option String) (c : List String)
    (hrem : h.remote_ssh_command = some p) (hne : p ≠ []) :
    thread_full_command h.remote_ssh_command h.container_name cmd input =
      p ++ (["docker", "exec"] ++ (if input.isSome then ["-i"] else []) ++
        [h.container_name] ++ pySplit cmd) ∧
    get_allowed_full_command h =
      p ++ ["docker", "exec", h.container_name, "get_allowed"] ∧
    execute_command_argv h c = c ∧
    thread_full_command (clear_remote_connection h).remote_ssh_command
        h.container_name cmd input =
      ["docker", "exec"] ++ (if input.isSome then ["-i"] else []) ++
        [h.container_name] ++ pySplit cmd ∧
    execute_command_argv (clear_remote_connection h) c = c := by
  have hpe : p.isEmpty = false := by
    cases p with
    | nil => exact absurd rfl hne
    | cons a t => rfl
  refine ⟨?_, ?_, rfl, ?_, rfl⟩
  · simp [thread_full_command, remoteActive, hrem, hpe]
  · simp [get_allowed_full_command, remoteActive, hrem, hpe]
  · simp [thread_full_command, clear_remote_connection, remoteActive]

/-- Claim C2 witness: the amended theorem applied to a handler with the
prefix `["ssh", "host"]`, the exec command `get_node_info` and the stop
command. -/
theorem c2_remote_prefixing_witness :
    ((⟨"r1node", some ["ssh", "host"]⟩ : HandlerState).remote_ssh_command =
        some ["ssh", "host"] ∧ (["ssh", "host"] : List String) ≠ []) ∧
    thread_full_command
        (⟨"r1node", some ["ssh", "host"]⟩ : HandlerState).remote_ssh_command
        "r1node" "get_node_info" none =
      ["ssh", "host"] ++ (["docker", "exec"] ++
        (if (none : Option String).isSome then ["-i"] else []) ++
        ["r1node"] ++ pySplit "get_node_info") ∧
    get_allowed_full_command (⟨"r1node", some ["ssh", "host"]⟩ : HandlerState) =
      ["ssh", "host"] ++ ["docker", "exec", "r1node", "get_allowed"] ∧
    execute_command_argv (⟨"r1node", some ["ssh", "host"]⟩ : HandlerState)
        ["docker", "stop", "r1node"] = ["docker", "stop", "r1node"] ∧
    thread_full_command
        (clear_remote_connection
          (⟨"r1node", some ["ssh", "host"]⟩ : HandlerState)).remote_ssh_command
        "r1node" "get_node_info" none =
      ["docker", "exec"] ++ (if (none : Option String).isSome then ["-i"] else []) ++
        ["r1node"] ++ pySplit "get_node_info" ∧
    execute_command_argv
        (clear_remote_connection (⟨"r1node", some ["ssh", "host"]⟩ : HandlerState))
        ["docker", "stop", "r1node"] = ["docker", "stop", "r1node"] :=
  ⟨⟨rfl, by decide⟩,
    c2_remote_prefixing ⟨"r1node", some ["ssh", "host"]⟩ ["ssh", "host"]
      "get_node_info" none ["docker", "stop", "r1node"] rfl (by decide)⟩

/-! ## Claim C6: `is_container_running` for an absent container -/

/-- Claim C6, counterexample: when `docker inspect` fails (container absent,
exit code 1), the callback form of `is_container_running` delivers the
failure to the error callback rather than invoking the success callback
with `False` — `inspect_container` is called with the caller-supplied error
callback directly. -/
theorem c6_counterexample :
    is_container_running_callback (fun _ => ("", "No such object", (1 : Int)))
        (fun _ => (none : Option InspectInfo)) "r1node" =
      Except.error "Failed to inspect container r1node: No such object" ∧
    is_container_running_callback (fun _ => ("", "No such object", (1 : Int)))
        (fun _ => (none : Option InspectInfo)) "r1node" ≠ Except.ok false := by
  constructor
  · rfl
  · intro hb
    rw [show is_container_running_callback (fun _ => ("", "No such object", (1 : Int)))
        (fun _ => (none : Option InspectInfo)) "r1node" =
        Except.error "Failed to inspect container r1node: No such object" from rfl] at hb
    exact Except.noConfusion hb

/-- Claim C6 as amended: for a container absent from Docker (inspect exits
nonzero), the synchronous form returns `False`, while the callback form
invokes the error callback with the inspect failure and never the success
callback. -/
theorem c6_absent_container (env : CmdEnv)
    (jsonFirst : String → Option InspectInfo) (name : String)
    (h : (env ["docker", "inspect", name]).2.2 ≠ 0) :
    is_container_running_sync env jsonFirst name = false ∧
    is_container_running_callback env jsonFirst name =
      Except.error ("Failed to inspect container " ++ name ++ ": " ++
        (env ["docker", "inspect", name]).2.1) := by
  have hins : inspect_container_sync env jsonFirst name =
      Except.error ("Failed to inspect container " ++ name ++ ": " ++
        (env ["docker", "inspect", name]).2.1) := by
    unfold inspect_container_sync
    rw [if_pos h]
  constructor
  · unfold is_container_running_sync
    rw [hins]
  · unfold is_container_running_callback
    rw [hins]
    rfl

/-- Claim C6 witness: the amended theorem applied to an environment in
which the inspect command fails with exit code 1. -/
theorem c6_absent_container_witness :
    (((fun _ => ("", "No such object", (1 : Int))) :
        CmdEnv) ["docker", "inspect", "r1node"]).2.2 ≠ 0 ∧
    is_container_running_sync (fun _ => ("", "No such object", (1 : Int)))
        (fun _ => (some ⟨some (some true)⟩ : Option InspectInfo)) "r1node" = false ∧
    is_container_running_callback (fun _ => ("", "No such object", (1 : Int)))
        (fun _ => (some ⟨some (some true)⟩ : Option InspectInfo)) "r1node" =
      Except.error ("Failed to inspect container " ++ "r1node" ++ ": " ++
        (((fun _ => ("", "No such object", (1 : Int))) :
          CmdEnv) ["docker", "inspect", "r1node"]).2.1) :=
  ⟨by decide,
    (c6_absent_container (fun _ => ("", "No such object", (1 : Int)))
        (fun _ => some ⟨some (some true)⟩) "r1node" (by decide)).1,
    (c6_absent_container (fun _ => ("", "No such object", (1 : Int)))
        (fun _ => some ⟨some (some true)⟩) "r1node" (by decide)).2⟩

/-! ## Claims C9 and C10: the allowed-addresses parser -/

/-- Cutting at the hash keeps exactly the hash-free front segment. -/
theorem takeBeforeHash_append (pre junk : List Char)
    (h : ∀ c ∈ pre, c ≠ '#') :
    takeBeforeHash (pre ++ '#' :: junk) = pre := by
  induction pre with
  | nil => simp [takeBeforeHash]
  | cons a t ih =>
    have ha : a ≠ '#' := h a (List.mem_cons_self _ _)
    unfold takeBeforeHash at *
    rw [List.cons_append, List.takeWhile_cons, if_pos (by simpa using ha)]
    rw [ih (fun c hc => h c (List.mem_cons_of_mem _ hc))]

/-- Cutting at the hash is the identity on a hash-free line. -/
theorem takeBeforeHash_self (l : List Char) (h : ∀ c ∈ l, c ≠ '#') :
    takeBeforeHash l = l := by
  unfold takeBeforeHash
  exact List.takeWhile_eq_self_iff.mpr (by intro x hx; simpa using h x hx)

/-- A line containing a hash never strips to nothing. -/
theorem pyStripL_hash_append_ne_nil (pre junk : List Char) :
    pyStripL (pre ++ '#' :: junk) ≠ [] := by
  rw [Ne, pyStripL_eq_nil_iff]
  intro hall
  have := hall '#' (List.mem_append.mpr (Or.inr (List.mem_cons_self _ _)))
  exact absurd this (by decide)

/-- Claim C9: `process_allowed_addresses` yields exactly the two-entry
dictionary on the specimen input, a line that strips to nothing is skipped,
and only the text before the first `#` of a line is significant. -/
theorem c9_allowed_addresses_parse :
    process_allowed_addresses "0xABC alias1\n0xDEF alias2 # comment\n\n" =
      .ok [("0xABC", "alias1"), ("0xDEF", "alias2")] ∧
    (∀ (d : List (String × String)) (line : List Char),
      pyStripL line = [] → lineStep d line = .ok d) ∧
    (∀ (d : List (String × String)) (pre junk : List Char),
      (∀ c ∈ pre, c ≠ '#') →
      lineStep d (pre ++ '#' :: junk) = lineStep d pre) := by
  refine ⟨rfl, ?_, ?_⟩
  · intro d line h
    simp only [lineStep]
    rw [if_pos h]
  · intro d pre junk hpre
    have h2 := pyStripL_hash_append_ne_nil pre junk
    have htake := takeBeforeHash_append pre junk hpre
    have htake2 := takeBeforeHash_self pre hpre
    simp only [lineStep]
    rw [htake, htake2, if_neg h2]
    by_cases h1 : pyStripL pre = []
    · rw [if_pos h1, if_pos h1]
    · rw [if_neg h1, if_neg h1]

/-- Claim C9 witness: the skip and comment clauses applied to a whitespace
line and to the line `0xA b` with the comment `#junk` appended. -/
theorem c9_allowed_addresses_parse_witness :
    pyStripL "  \t ".data = [] ∧
    lineStep [] "  \t ".data = .ok [] ∧
    (∀ c ∈ ("0xA b".data : List Char), c ≠ '#') ∧
    lineStep [] ("0xA b".data ++ '#' :: "junk".data) = lineStep [] "0xA b".data :=
  ⟨by decide,
    c9_allowed_addresses_parse.2.1 [] ("  \t ".data) (by decide),
    by decide,
    c9_allowed_addresses_parse.2.2 [] ("0xA b".data) ("junk".data) (by decide)⟩

/-- A single-token line makes the loop body raise the unpack error. -/
theorem lineStep_error_of_single_token (d : List (String × String))
    (line : List Char) (h : line_single_token line = true) :
    lineStep d line = .error unpackErrorMsg := by
  simp only [line_single_token, Bool.and_eq_true, Bool.not_eq_true'] at h
  have hmain : pyStripL (takeBeforeHash line) ≠ [] := by
    intro hc
    rw [hc] at h
    exact absurd h.1 (by decide)
  have hrest : ((pyStripL (takeBeforeHash line)).dropWhile
      (fun c => !isPySpace c)).dropWhile isPySpace = [] := by
    have := h.2
    rwa [List.isEmpty_iff] at this
  have hline : pyStripL line ≠ [] := by
    rw [Ne, pyStripL_eq_nil_iff]
    intro hall
    apply hmain
    rw [pyStripL_eq_nil_iff]
    intro x hx
    unfold takeBeforeHash at hx
    exact hall x (( List.takeWhile_prefix _).subset hx)
  simp only [lineStep]
  rw [if_neg hline, if_neg hmain, if_pos hrest]

/-- Any single-token line aborts the whole fold with an error. -/
theorem foldlM_lineStep_error (lines : List (List Char)) :
    ∀ d, lines.any line_single_token = true →
      ∃ msg, lines.foldlM lineStep d = Except.error msg := by
  induction lines with
  | nil => intro d h; simp at h
  | cons l ls ih =>
    intro d h
    rw [List.foldlM_cons]
    cases hl : lineStep d l with
    | error e => exact ⟨e, rfl⟩
    | ok d' =>
      have hany : ls.any line_single_token = true := by
        rcases List.any_eq_true.mp h with ⟨x, hx, hxs⟩
        rcases List.mem_cons.mp hx with rfl | hxls
        · rw [lineStep_error_of_single_token d x hxs] at hl
          exact Except.noConfusion hl
        · exact List.any_eq_true.mpr ⟨x, hxls, hxs⟩
      rcases ih d' hany with ⟨msg, hmsg⟩
      exact ⟨msg, hmsg⟩

/-- Claim C10: an output containing a non-blank line whose significant part
has exactly one whitespace-delimited token makes the whole operation report
an error (the error callback fires and the success callback never does, so
no partial dictionary is delivered). -/
theorem c10_single_token_error (output : String)
    (h : (splitOnCharL '\n' (pyStripL output.data)).any line_single_token = true) :
    ∃ msg, process_allowed_addresses output = Except.error msg := by
  unfold process_allowed_addresses
  exact foldlM_lineStep_error _ [] h

/-- Claim C10 witness: an output whose second line is a bare address. -/
theorem c10_single_token_error_witness :
    (splitOnCharL '\n' (pyStripL ("0xABC alias1\n0xBAD" : String).data)).any
        line_single_token = true ∧
    ∃ msg, process_allowed_addresses "0xABC alias1\n0xBAD" = Except.error msg :=
  ⟨by decide, c10_single_token_error "0xABC alias1\n0xBAD" (by decide)⟩

/-! ## Claim C4: bounded timeouts and the timed-out error message -/

/-- A substring occurrence survives appending to the string. -/
theorem strContains_append_right (s r pat : String)
    (h : strContains s pat = true) : strContains (s ++ r) pat = true := by
  unfold strContains at *
  rw [String.data_append]
  exact containsSubL_append _ _ _ h

/-- Claim C4: every exec-based command runs under the bounded timeout of
`thread_timeout` — 10 seconds locally and 20 seconds under a nonempty
remote prefix — and a call whose subprocess needs longer than that timeout
emits an error whose message contains the substring `timed out`. -/
theorem c4_timeout_classification {J : Type} (jsonLoads : String → Option J)
    (remote : Option (List String)) (name cmd : String)
    (input : Option String) (proc : ProcOutcome)
    (h : thread_timeout remote < proc.duration) :
    thread_timeout none = 10 ∧
    (∀ p : List String, p ≠ [] → thread_timeout (some p) = 20) ∧
    ∃ msg, (thread_run jsonLoads remote name cmd input proc).2 =
        ThreadEvent.errorEmitted msg ∧
      strContains msg "timed out" = true := by
  refine ⟨rfl, ?_, ?_⟩
  · intro p hp
    have hpe : p.isEmpty = false := by
      cases p with
      | nil => exact absurd rfl hp
      | cons a t => rfl
    simp [thread_timeout, remoteActive, hpe]
  · refine ⟨"Command timed out after " ++ toString (thread_timeout remote) ++
      " seconds: " ++ joinSpace
        (thread_full_command remote name cmd input), ?_, ?_⟩
    · simp only [thread_run]
      rw [if_pos h]
    · exact strContains_append_right _ _ _ (strContains_append_right _ _ _
        (strContains_append_right _ _ _ (by decide)))

/-- Claim C4 witness: the theorem applied to a local call with an
11-second subprocess and to a remote-prefixed call with a 21-second
subprocess. -/
theorem c4_timeout_classification_witness :
    (thread_timeout none < (11 : Nat) ∧
      thread_timeout (some ["ssh", "host"]) < (21 : Nat)) ∧
    (∃ msg, (thread_run (fun _ => (none : Option Unit)) none "r1node"
        "get_node_info" none ⟨11, "", "", 0⟩).2 =
          ThreadEvent.errorEmitted msg ∧ strContains msg "timed out" = true) ∧
    (∃ msg, (thread_run (fun _ => (none : Option Unit)) (some ["ssh", "host"])
        "r1node" "get_node_info" none ⟨21, "", "", 0⟩).2 =
          ThreadEvent.errorEmitted msg ∧ strContains msg "timed out" = true) :=
  ⟨⟨by decide, by decide⟩,
    (c4_timeout_classification (fun _ => (none : Option Unit)) none "r1node"
      "get_node_info" none ⟨11, "", "", 0⟩ (by decide)).2.2,
    (c4_timeout_classification (fun _ => (none : Option Unit))
      (some ["ssh", "host"]) "r1node" "get_node_info" none ⟨21, "", "", 0⟩
      (by decide)).2.2⟩

/-! ## Claim C3: forced removal precedes the run command -/

/-- The inspect command is not a run command. -/
theorem isRunCommand_inspect (name : String) :
    isRunCommand ["docker", "container", "inspect", name] = false := rfl

/-- The removal command is not a run command. -/
theorem isRunCommand_rm (name : String) :
    isRunCommand ["docker", "rm", "-f", name] = false := rfl

/-- Claim C3: whenever `docker container inspect` reports that a container
with the target name exists (exit code 0), the launch trace starts with the
inspect followed immediately by `docker rm -f <name>`; every `docker run`
command in the trace comes strictly after that removal, and if the removal
fails no run command is issued at all. -/
theorem c3_rm_before_run (env : CmdEnv) (machine name : String)
    (vol : Option String)
    (h : (env ["docker", "container", "inspect", name]).2.2 = 0) :
    (run_launch env machine name vol).1.get? 0 =
      some ["docker", "container", "inspect", name] ∧
    (run_launch env machine name vol).1.get? 1 =
      some ["docker", "rm", "-f", name] ∧
    (∀ i c, (run_launch env machine name vol).1.get? i = some c →
      isRunCommand c = true → 2 ≤ i) ∧
    ((env ["docker", "rm", "-f", name]).2.2 ≠ 0 →
      ∀ c ∈ (run_launch env machine name vol).1, isRunCommand c = false) := by
  unfold run_launch
  rw [if_pos h]
  by_cases h2 : (env ["docker", "rm", "-f", name]).2.2 ≠ 0
  · rw [if_pos h2]
    refine ⟨rfl, rfl, ?_, ?_⟩
    · intro i c hget hrun
      match i with
      | 0 =>
        rw [show c = ["docker", "container", "inspect", name] by
          simpa using hget.symm] at hrun
        rw [isRunCommand_inspect] at hrun
        exact absurd hrun (by decide)
      | 1 =>
        rw [show c = ["docker", "rm", "-f", name] by
          simpa using hget.symm] at hrun
        rw [isRunCommand_rm] at hrun
        exact absurd hrun (by decide)
      | (n + 2) => omega
    · intro _ c hc
      rcases List.mem_cons.mp hc with rfl | hc1
      · exact isRunCommand_inspect name
      · rcases List.mem_cons.mp hc1 with rfl | hc2
        · exact isRunCommand_rm name
        · exact absurd hc2 (List.not_mem_nil c)
  · rw [if_neg h2]
    refine ⟨rfl, rfl, ?_, ?_⟩
    · intro i c hget hrun
      match i with
      | 0 =>
        rw [show c = ["docker", "container", "inspect", name] by
          simpa using hget.symm] at hrun
        rw [isRunCommand_inspect] at hrun
        exact absurd hrun (by decide)
      | 1 =>
        rw [show c = ["docker", "rm", "-f", name] by
          simpa using hget.symm] at hrun
        rw [isRunCommand_rm] at hrun
        exact absurd hrun (by decide)
      | (n + 2) => omega
    · intro hrm
      exact absurd hrm h2

/-- Claim C3 witness: the theorem applied to an environment in which the
same-named container exists and its removal succeeds. -/
theorem c3_rm_before_run_witness :
    ((((fun c => if c = ["docker", "container", "inspect", "r1node00"] then
        ("[]", "", (0 : Int)) else ("ok", "", (0 : Int))) :
          CmdEnv) ["docker", "container", "inspect", "r1node00"]).2.2 = 0) ∧
    (run_launch (fun c => if c = ["docker", "container", "inspect", "r1node00"]
        then ("[]", "", (0 : Int)) else ("ok", "", (0 : Int)))
        "x86_64" "r1node00" (some "r1node00_vol")).1.get? 1 =
      some ["docker", "rm", "-f", "r1node00"] :=
  ⟨by decide,
    (c3_rm_before_run (fun c =>
        if c = ["docker", "container", "inspect", "r1node00"] then
          ("[]", "", (0 : Int)) else ("ok", "", (0 : Int)))
      "x86_64" "r1node00" (some "r1node00_vol") (by decide)).2.1⟩

/-! ## Claim C1: the name-conflict removal-and-retry policy -/

/-- Claim C1, counterexample: with two successive launch attempts failing
with a name-conflict error and the third succeeding (all forced removals
succeeding), the handler launches three times and ends in success — the
second conflict is retried again rather than surfaced as a terminal error,
because `on_launch_error` installs itself as the error callback of the
retried launch and keeps no retry counter. -/
theorem c1_counterexample :
    (launch_retry_loop (fun _ => 0)
        [Except.error ("Conflict. The name is already in use by container \"aaa111\". Remove it."),
         Except.error ("Conflict. The name is already in use by container \"bbb222\". Remove it."),
         Except.ok ()]).2 = Except.ok () ∧
    ((launch_retry_loop (fun _ => 0)
        [Except.error ("Conflict. The name is already in use by container \"aaa111\". Remove it."),
         Except.error ("Conflict. The name is already in use by container \"bbb222\". Remove it."),
         Except.ok ()]).1.count LaunchEvent.launched) = 3 :=
  ⟨rfl, rfl⟩

/-- Claim C1 as amended: every launch failure matching the conflict pattern
whose message yields a container id and whose forced removal exits zero
triggers a one-second wait and a further launch attempt, recursively and
with no bound on the number of automatic retries; a failure that does not
match the pattern, or whose id cannot be extracted, or whose forced removal
fails, is surfaced as a terminal error via the error callback with no
retry. -/
theorem c1_conflict_retry (rmRc : String → Int) (msg : String)
    (rest : List (Except String Unit)) :
    (is_conflict_error msg = false →
      launch_retry_loop rmRc (.error msg :: rest) =
        ([.launched], .error msg)) ∧
    (∀ cid, is_conflict_error msg = true →
      extract_container_id msg = some cid → rmRc cid = 0 →
      launch_retry_loop rmRc (.error msg :: rest) =
        (.launched :: .removedConflicting cid :: .slept 1 ::
          (launch_retry_loop rmRc rest).1,
         (launch_retry_loop rmRc rest).2)) ∧
    (is_conflict_error msg = true → extract_container_id msg = none →
      launch_retry_loop rmRc (.error msg :: rest) =
        ([.launched], .error msg)) ∧
    (∀ cid, is_conflict_error msg = true →
      extract_container_id msg = some cid → rmRc cid ≠ 0 →
      launch_retry_loop rmRc (.error msg :: rest) =
        ([.launched], .error msg)) ∧
    launch_retry_loop rmRc (.ok () :: rest) = ([.launched], .ok ()) := by
  refine ⟨?_, ?_, ?_, ?_, rfl⟩
  · intro hconf
    simp [launch_retry_loop, hconf]
  · intro cid hconf hext hrm
    simp [launch_retry_loop, hconf, hext, hrm]
  · intro hconf hext
    simp [launch_retry_loop, hconf, hext]
  · intro cid hconf hext hrm
    simp [launch_retry_loop, hconf, hext, hrm]

/-- Claim C1 witness: the amended theorem applied to a conflict message
with the id `ccc333`, a non-conflict message, and a conflict whose removal
fails. -/
theorem c1_conflict_retry_witness :
    (is_conflict_error "image pull failed" = false ∧
      launch_retry_loop (fun _ => 0) [Except.error "image pull failed"] =
        ([LaunchEvent.launched], Except.error "image pull failed")) ∧
    (is_conflict_error
        "Conflict. The name is already in use by container \"ccc333\". Remove it." = true ∧
      extract_container_id
        "Conflict. The name is already in use by container \"ccc333\". Remove it." =
          some "ccc333" ∧
      launch_retry_loop (fun _ => 0)
          [Except.error "Conflict. The name is already in use by container \"ccc333\". Remove it.",
           Except.ok ()] =
        (LaunchEvent.launched :: LaunchEvent.removedConflicting "ccc333" ::
          LaunchEvent.slept 1 ::
            (launch_retry_loop (fun _ => 0) [Except.ok ()]).1,
         (launch_retry_loop (fun _ => 0) [Except.ok ()]).2)) ∧
    launch_retry_loop (fun _ => 1)
        [Except.error "Conflict. The name is already in use by container \"ccc333\". Remove it."] =
      ([LaunchEvent.launched],
        Except.error "Conflict. The name is already in use by container \"ccc333\". Remove it.") :=
  ⟨⟨by decide,
      (c1_conflict_retry (fun _ => 0) "image pull failed" []).1 (by decide)⟩,
    ⟨by decide, by decide,
      (c1_conflict_retry (fun _ => 0)
        "Conflict. The name is already in use by container \"ccc333\". Remove it."
        [Except.ok ()]).2.1 "ccc333" (by decide) (by decide) rfl⟩,
    (c1_conflict_retry (fun _ => 1)
      "Conflict. The name is already in use by container \"ccc333\". Remove it."
      []).2.2.2.1 "ccc333" (by decide) (by decide) (by decide)⟩

/-! ## Claim C5: registry persistence round-trip -/

/-- Rebuilding a serialized entry recovers it. -/
theorem infoOfFields_varsOf (i : ContainerInfo) :
    infoOfFields (varsOf i) = some i := by
  cases i with
  | mk n v c l => cases v <;> rfl

/-- Deserializing a serialized map recovers it entry for entry. -/
theorem mapM_save_containers (m : List (String × ContainerInfo)) :
    (save_containers m).mapM
        (fun p => (infoOfFields p.2).map (fun i => (p.1, i))) = some m := by
  induction m with
  | nil => rfl
  | cons p t ih =>
    simp only [save_containers, List.map_cons, List.mapM_cons,
      infoOfFields_varsOf, Option.map_some]
    simp only [save_containers] at ih
    rw [ih]
    rfl

/-- Loading a saved map recovers it. -/
theorem load_save_containers (m : List (String × ContainerInfo)) :
    load_containers (save_containers m) = m := by
  unfold load_containers
  rw [mapM_save_containers]

/-- The registry invariant: the in-memory dictionary equals what a fresh
load of the persisted file produces. -/
def RegInv (r : RegistryState) : Prop :=
  r.containers = load_containers r.storedFile

/-- Every mutation preserves the registry invariant. -/
theorem applyOp_RegInv (r : RegistryState) (op : RegOp) (h : RegInv r) :
    RegInv (applyOp r op) := by
  cases op with
  | add n v now =>
    show RegInv (add_container r n v now)
    unfold add_container RegInv
    rw [load_save_containers]
  | update n now =>
    show RegInv (update_last_used r n now)
    unfold update_last_used
    by_cases hc : r.containers.any (fun p => p.1 = n) = true
    · rw [if_pos hc]
      unfold RegInv
      rw [load_save_containers]
    · rw [if_neg hc]
      exact h
  | remove n =>
    show RegInv (registry_remove_container r n)
    unfold registry_remove_container
    by_cases hc : r.containers.any (fun p => p.1 = n) = true
    · rw [if_pos hc]
      unfold RegInv
      rw [load_save_containers]
    · rw [if_neg hc]
      exact h

/-- Replaying mutations preserves the registry invariant. -/
theorem applyOps_RegInv (ops : List RegOp) :
    ∀ r : RegistryState, RegInv r → RegInv (applyOps r ops) := by
  induction ops with
  | nil => intro r h; exact h
  | cons op t ih =>
    intro r h
    exact ih (applyOp r op) (applyOp_RegInv r op h)

/-- Claim C5: after replaying any sequence of add, update and remove
mutations on a registry freshly loaded from any file, `list_containers` on
the in-memory registry equals `list_containers` on a fresh registry loaded
from the persisted file, and every state-changing mutation rewrites the
persisted file as the serialization of the entire new map. -/
theorem c5_registry_roundtrip (f : SavedFile) (ops : List RegOp) :
    registry_list_containers (applyOps (fresh_registry f) ops) =
      registry_list_containers
        (fresh_registry ((applyOps (fresh_registry f) ops).storedFile)) ∧
    ∀ (r : RegistryState) (op : RegOp), applyOp r op = r ∨
      (applyOp r op).storedFile = save_containers (applyOp r op).containers := by
  constructor
  · have hinv : RegInv (applyOps (fresh_registry f) ops) :=
      applyOps_RegInv ops (fresh_registry f) rfl
    unfold RegInv at hinv
    exact congrArg (List.map (fun p => p.2)) hinv
  · intro r op
    cases op with
    | add n v now => exact Or.inr rfl
    | update n now =>
      by_cases hc : r.containers.any (fun p => p.1 = n) = true
      · right
        show (update_last_used r n now).storedFile =
          save_containers (update_last_used r n now).containers
        unfold update_last_used
        rw [if_pos hc]
      · left
        show update_last_used r n now = r
        unfold update_last_used
        rw [if_neg hc]
    | remove n =>
      by_cases hc : r.containers.any (fun p => p.1 = n) = true
      · right
        show (registry_remove_container r n).storedFile =
          save_containers (registry_remove_container r n).containers
        unfold registry_remove_container
        rw [if_pos hc]
      · left
        show registry_remove_container r n = r
        unfold registry_remove_container
        rw [if_neg hc]

end EdgeNode
